import Mathlib

/-!
# Shift-Template Versioning & Work-Shift Resolution Engine — verification

A shallow embedding of the core of the `shift_calendar_server` repository
(the services in `shiftTemplateService` / `calendarService` together with the
Sequelize model declarations), with theorems checking the natural-language
specification against that embedding.

Modelling conventions:
* UUIDs are modelled as `Nat` identifiers drawn from a fresh-id counter.
* Calendar dates (`DATEONLY` columns, normalized with `setHours(0,0,0,0)`)
  are modelled as `Nat` day numbers; timestamps (`deleted_at`, ...) as `Nat`.
* Database tables are Lean lists in insertion order; Sequelize `findOne`
  without an `order` clause is `List.find?` (first match), `findOne` with
  `order: [[c, "DESC"]]` picks a maximum of the filtered list.
* A Sequelize transaction is modelled by threading an explicit state; a
  rollback returns the state from before the transaction was opened.
  Operations return `Except err α × DBState`; on an error the paired state is
  the caller's original state (the source rolls back before re-throwing).
-/

/-- The result of the source's `calculateTimeInfo` helper. The source stores
`duration_minutes` in an integer column; JS arithmetic is modelled over `Int`. -/
structure TimeInfo where
  crosses_midnight : Bool
  duration_minutes : Int
deriving Repr, DecidableEq

/-- JS truthiness of a nullable string (`null`/`undefined` and `""` are falsy). -/
def jsTruthy : Option String → Bool
  | none => false
  | some s => s ≠ ""

/-- JS `string.split(sep)` for a one-character separator, over char lists. -/
def splitOnChar (c : Char) : List Char → List (List Char)
  | [] => [[]]
  | x :: xs =>
    if x = c then [] :: splitOnChar c xs
    else
      match splitOnChar c xs with
      | s :: ss => (x :: s) :: ss
      | [] => [[x]]

/-- JS `Number` coercion restricted to plain digit strings (the only shape the
route validator lets through to the service); any other component is mapped to
`none`, standing for the `NaN` the source would compute with. -/
def digitsToNat? (cs : List Char) : Option Nat :=
  if cs ≠ [] ∧ cs.all (·.isDigit) then
    some (cs.foldl (fun n c => n * 10 + (c.toNat - 48)) 0)
  else none

/-- `time.split(":")` followed by `Number` coercion of the first two
components, as in the source's `calculateTimeInfo`. -/
def parseHM (t : String) : Option (Nat × Nat) :=
  match splitOnChar ':' t.data with
  | a :: b :: _ =>
    match digitsToNat? a, digitsToNat? b with
    | some h, some m => some (h, m)
    | _, _ => none
  | _ => none

/-- The source's `calculateTimeInfo(start_time, end_time)`:
if either argument is falsy, return `crosses_midnight = false`,
`duration_minutes = 0`; otherwise parse `HH:mm[:ss]`, set
`crosses_midnight = start_total_minutes > end_total_minutes` and
`duration_minutes = crosses ? 24*60 - start + end : end - start`.
A truthy but non-numeric string yields `NaN` arithmetic in JS; that case is
modelled as the zero record and is unreachable in the theorems below, all of
which require `parseHM` to succeed. -/
def calculateTimeInfo (start_time end_time : Option String) : TimeInfo :=
  if jsTruthy start_time = false ∨ jsTruthy end_time = false then
    ⟨false, 0⟩
  else
    match start_time, end_time with
    | some st, some et =>
      match parseHM st, parseHM et with
      | some (sh, sm), some (eh, em) =>
        let start_total : Int := sh * 60 + sm
        let end_total : Int := eh * 60 + em
        ⟨decide (start_total > end_total),
         if start_total > end_total then 24 * 60 - start_total + end_total
         else end_total - start_total⟩
      | _, _ => ⟨false, 0⟩
    | _, _ => ⟨false, 0⟩

/-- A parse success forces the string to be nonempty (hence JS-truthy). -/
theorem parseHM_ne_empty {t : String} {p : Nat × Nat} (h : parseHM t = some p) :
    t ≠ "" := by
  intro he
  subst he
  have hnone : parseHM "" = none := by decide
  rw [hnone] at h
  exact Option.noConfusion h

theorem calculateTimeInfo_parsed (st et : String) (sh sm eh em : Nat)
    (hs : parseHM st = some (sh, sm)) (he : parseHM et = some (eh, em)) :
    calculateTimeInfo (some st) (some et) =
      ⟨decide ((sh * 60 + sm : Int) > (eh * 60 + em : Int)),
       if (sh * 60 + sm : Int) > (eh * 60 + em : Int) then
         24 * 60 - (sh * 60 + sm : Int) + (eh * 60 + em) else
         (eh * 60 + em : Int) - (sh * 60 + sm)⟩ := by
  have hs' := parseHM_ne_empty hs
  have he' := parseHM_ne_empty he
  simp only [calculateTimeInfo, jsTruthy, hs, he]
  simp [hs', he']

/-- C4: for every pair of valid `HH:MM` times, `calculateTimeInfo` reports
`crosses_midnight = (start_minutes > end_minutes)` and a duration of
`1440 - start + end` minutes when crossing midnight, `end - start` otherwise;
in particular `("22:30","07:00")` yields `(true, 510)` and
`("06:30","15:00")` yields `(false, 510)`. -/
theorem calculateTimeInfo_valid_pair (st et : String) (sh sm eh em : Nat)
    (hs : parseHM st = some (sh, sm)) (he : parseHM et = some (eh, em))
    (hsh : sh < 24) (hsm : sm < 60) (heh : eh < 24) (hem : em < 60) :
    (calculateTimeInfo (some st) (some et)).crosses_midnight
        = decide (sh * 60 + sm > eh * 60 + em) ∧
    (calculateTimeInfo (some st) (some et)).duration_minutes
        = (if sh * 60 + sm > eh * 60 + em
           then 1440 - (sh * 60 + sm : Int) + (eh * 60 + em)
           else (eh * 60 + em : Int) - (sh * 60 + sm)) ∧
    calculateTimeInfo (some "22:30") (some "07:00") = ⟨true, 510⟩ ∧
    calculateTimeInfo (some "06:30") (some "15:00") = ⟨false, 510⟩ := by
  rw [calculateTimeInfo_parsed st et sh sm eh em hs he]
  have hcmp : ((sh * 60 + sm : Int) > (eh * 60 + em : Int))
      ↔ (sh * 60 + sm > eh * 60 + em) := by
    constructor <;> intro h <;> exact_mod_cast h
  refine ⟨by simp [hcmp], ?_, by decide, by decide⟩
  by_cases h : sh * 60 + sm > eh * 60 + em
  · rw [if_pos h, if_pos (hcmp.mpr h)]
    norm_num
  · rw [if_neg h, if_neg (fun hc => h (hcmp.mp hc))]

/-- C4 witness: the concrete overnight example. -/
theorem calculateTimeInfo_valid_pair_witness :
    calculateTimeInfo (some "22:30") (some "07:00") = ⟨true, 510⟩ :=
  (calculateTimeInfo_valid_pair "22:30" "07:00" 22 30 7 0
    (by decide) (by decide) (by decide) (by decide) (by decide)
    (by decide)).2.2.1

/-- C10: equal valid start and end times give `crosses_midnight = false` and
`duration_minutes = 0` (a zero-length, non-overnight shift); moreover the
duration of any valid pair is below 1440, so no start/end pair expresses a
24-hour shift. -/
theorem calculateTimeInfo_equal_times (st et : String) (sh sm eh em : Nat)
    (hs : parseHM st = some (sh, sm)) (he : parseHM et = some (eh, em))
    (hsh : sh < 24) (hsm : sm < 60) (heh : eh < 24) (hem : em < 60) :
    (sh * 60 + sm = eh * 60 + em →
      calculateTimeInfo (some st) (some et) = ⟨false, 0⟩) ∧
    (calculateTimeInfo (some st) (some et)).duration_minutes < 1440 := by
  rw [calculateTimeInfo_parsed st et sh sm eh em hs he]
  constructor
  · intro heq
    have heq' : (sh * 60 + sm : Int) = (eh * 60 + em : Int) := by
      exact_mod_cast heq
    simp [heq']
  · by_cases h : (sh * 60 + sm : Int) > (eh * 60 + em : Int)
    · simp only [if_pos h]
      omega
    · simp only [if_neg h]
      have hem' : (eh * 60 + em : Int) < 1440 := by
        have : eh * 60 + em < 1440 := by omega
        exact_mod_cast this
      omega

/-- C10 witness: a concrete equal pair, `09:00` to `09:00`. -/
theorem calculateTimeInfo_equal_times_witness :
    calculateTimeInfo (some "09:00") (some "09:00") = ⟨false, 0⟩ :=
  (calculateTimeInfo_equal_times "09:00" "09:00" 9 0 9 0
    (by decide) (by decide) (by decide) (by decide) (by decide)
    (by decide)).1 rfl

/-! ## Data model

The five entities of the core schema, translated from the Sequelize model
declarations.  Columns irrelevant to every claim (e.g. `created_at`
timestamps) are omitted; nullable columns are `Option`. -/

structure ShiftTemplate where
  template_id : Nat
  owner_user_id : Nat
  name : String
  deleted_at : Option Nat
deriving Repr, DecidableEq

structure ShiftTemplateVersion where
  template_version_id : Nat
  template_id : Nat
  version_no : Nat
  effective_from : Nat
deriving Repr, DecidableEq

structure ShiftType where
  shift_type_id : Nat
  template_id : Nat
  code : String
  name : String
  color : Option Int
  sort_order : Option Int
  deleted_at : Option Nat
deriving Repr, DecidableEq

structure ShiftTypeSchedule where
  schedule_id : Nat
  shift_type_id : Nat
  template_version_id : Nat
  start_time : Option String
  end_time : Option String
  crosses_midnight : Bool
  duration_minutes : Int
deriving Repr, DecidableEq

structure WorkShift where
  work_shift_id : Nat
  owner_user_id : Nat
  work_date : Nat
  schedule_id : Nat
  note : Option String
  visibility_level : Nat
  created_by_user_id : Nat
  deleted_at : Option Nat
  deleted_by_user_id : Option Nat
deriving Repr, DecidableEq

/-- The relational store: one list per table, in insertion order, plus a
fresh-id counter standing for UUID generation. -/
structure DBState where
  templates : List ShiftTemplate
  versions : List ShiftTemplateVersion
  shift_types : List ShiftType
  schedules : List ShiftTypeSchedule
  work_shifts : List WorkShift
  next_id : Nat
deriving Repr, DecidableEq

deriving instance DecidableEq for Except

/-- The structured errors thrown by the services in the claims' scope. -/
inductive ServiceError where
  | TEMPLATE_NOT_FOUND
  | SHIFT_TYPE_NOT_FOUND
  | FORBIDDEN
  | IN_USE
  | MAX_SHIFT_TYPES_EXCEEDED
  | DUPLICATE_NAME
  | DUPLICATE_DATE (duplicate_dates : List Nat)
  | INVALID_SHIFT_TYPE (invalid_code : String) (work_date : Nat)
  | TEMPLATE_VERSION_NOT_FOUND (work_date : Nat)
deriving Repr, DecidableEq

/-! ## Query helpers (Sequelize `findOne` / `count` translations) -/

/-- `ShiftTemplate.findOne({owner_user_id, deleted_at: null})`. -/
def findActiveTemplate (s : DBState) (user_id : Nat) : Option ShiftTemplate :=
  s.templates.find? fun t =>
    t.owner_user_id = user_id ∧ t.deleted_at = none

/-- All versions of a template (`where: {template_id}`). -/
def versionsOf (s : DBState) (template_id : Nat) : List ShiftTemplateVersion :=
  s.versions.filter fun v => v.template_id = template_id

/-- `findOne` with `order: [["effective_from", "DESC"]]`: a maximum of the
list by `effective_from` (`none` on the empty list). -/
def pickLatest : List ShiftTemplateVersion → Option ShiftTemplateVersion
  | [] => none
  | v :: vs =>
    match pickLatest vs with
    | none => some v
    | some w => if w.effective_from < v.effective_from then some v else some w

/-- `ShiftTemplateVersion.findOne({template_id}, order effective_from DESC)`. -/
def latestVersion (s : DBState) (template_id : Nat) :
    Option ShiftTemplateVersion :=
  pickLatest (versionsOf s template_id)

/-- The batch loop's date-scoped version lookup
(`effective_from: {[Op.lte]: work_date}`, order `effective_from DESC`),
with the source's fallback to the globally latest version when no version
is in force on `work_date` (spec §4.1 `resolveVersionForDate`). -/
def resolveVersionForDate (s : DBState) (template_id work_date : Nat) :
    Option ShiftTemplateVersion :=
  match pickLatest ((versionsOf s template_id).filter
      fun v => v.effective_from ≤ work_date) with
  | some v => some v
  | none => latestVersion s template_id

/-- `ShiftType.findOne({code, template_id, deleted_at: null})` (batch loop). -/
def findShiftTypeInTemplate (s : DBState) (code : String) (template_id : Nat) :
    Option ShiftType :=
  s.shift_types.find? fun st =>
    st.code = code ∧ st.template_id = template_id ∧ st.deleted_at = none

/-- `ShiftType.findOne({code, deleted_at: null}, include template required
where {owner_user_id, deleted_at: null})` (single upsert path). -/
def findShiftTypeForOwner (s : DBState) (code : String) (user_id : Nat) :
    Option ShiftType :=
  s.shift_types.find? fun st =>
    st.code = code ∧ st.deleted_at = none ∧
    (s.templates.find? fun t =>
      t.template_id = st.template_id ∧ t.owner_user_id = user_id ∧
      t.deleted_at = none).isSome

/-- `ShiftType.findOne({shift_type_id, deleted_at: null}, include template
required)`: the row together with its joined template. -/
def findLiveShiftType (s : DBState) (shift_type_id : Nat) :
    Option (ShiftType × ShiftTemplate) :=
  match s.shift_types.find? fun st =>
      st.shift_type_id = shift_type_id ∧ st.deleted_at = none with
  | none => none
  | some st =>
    match s.templates.find? fun t => t.template_id = st.template_id with
    | none => none
    | some t => some (st, t)

/-- `ShiftTypeSchedule.findOne({shift_type_id, template_version_id})`. -/
def findSchedule (s : DBState) (shift_type_id template_version_id : Nat) :
    Option ShiftTypeSchedule :=
  s.schedules.find? fun sc =>
    sc.shift_type_id = shift_type_id ∧
    sc.template_version_id = template_version_id

/-- `ShiftType.count({template_id, deleted_at: null})`. -/
def liveShiftTypeCount (s : DBState) (template_id : Nat) : Nat :=
  (s.shift_types.filter fun st =>
    st.template_id = template_id ∧ st.deleted_at = none).length

/-- The schedule find-or-create used by every work-shift path: look up the
`(shift_type, version)` row and lazily create it with null times and zero
duration when absent. -/
def findOrCreateSchedule (s : DBState) (shift_type_id template_version_id : Nat) :
    ShiftTypeSchedule × DBState :=
  match findSchedule s shift_type_id template_version_id with
  | some sc => (sc, s)
  | none =>
    let sc : ShiftTypeSchedule :=
      ⟨s.next_id, shift_type_id, template_version_id, none, none, false, 0⟩
    (sc, { s with schedules := s.schedules ++ [sc],
                  next_id := s.next_id + 1 })

/-- `note || null`: an empty note string is stored as SQL `NULL`. -/
def jsOrNull (note : Option String) : Option String :=
  match note with
  | some n => if n = "" then none else some n
  | none => none

/-- JS `new Set(l)` insertion-order deduplication, via a seen-accumulator. -/
def insertionDedupAux (seen : List Nat) : List Nat → List Nat
  | [] => []
  | d :: ds =>
    if d ∈ seen then insertionDedupAux seen ds
    else d :: insertionDedupAux (seen ++ [d]) ds

def insertionDedup (l : List Nat) : List Nat :=
  insertionDedupAux [] l

/-- The batch's duplicate-date extraction:
`dates.filter((date, index) => dates.indexOf(date) !== index)` followed by
`[...new Set(...)]`. -/
def jsDuplicateDates (dates : List Nat) : List Nat :=
  insertionDedup
    ((dates.enum.filter fun p => dates.indexOf p.2 ≠ p.1).map Prod.snd)

/-- Modelled from the spec: `WorkShift.upsert(values, {conflictFields:
["owner_user_id", "work_date"]})` is Sequelize-library behavior, not
repository code.  Per spec §3 and §4.4, the upsert is keyed on
`(owner, work_date)` with conflict-resolution overwrite replacing the
schedule reference and note, and re-upserting an already-present date
yields a logically new live row. -/
def upsertWorkShiftRow (s : DBState) (user_id work_date schedule_id : Nat)
    (note : Option String) : WorkShift × DBState :=
  match s.work_shifts.find? fun w =>
      w.owner_user_id = user_id ∧ w.work_date = work_date with
  | some w =>
    let w' : WorkShift :=
      { w with schedule_id := schedule_id, note := jsOrNull note,
               visibility_level := 0, created_by_user_id := user_id,
               deleted_at := none, deleted_by_user_id := none }
    (w', { s with work_shifts := s.work_shifts.map fun x =>
            if x.work_shift_id = w.work_shift_id then w' else x })
  | none =>
    let w : WorkShift :=
      ⟨s.next_id, user_id, work_date, schedule_id, jsOrNull note, 0,
       user_id, none, none⟩
    (w, { s with work_shifts := s.work_shifts ++ [w],
                 next_id := s.next_id + 1 })

/-! ## Service operations -/

/-- One element of the batch request body. -/
structure BatchEntry where
  work_date : Nat
  shift_type_code : String
  note : Option String
deriving Repr, DecidableEq

/-- `upsertWorkShift(user_id, work_date, shift_type_code, note?)`:
resolve the shift type by code for the owner, the owner's active template,
the template's latest version, the `(shift_type, version)` schedule
(created lazily), then upsert the `(owner, work_date)` row. -/
def upsertWorkShift (s : DBState) (user_id work_date : Nat)
    (shift_type_code : String) (note : Option String) :
    Except ServiceError WorkShift × DBState :=
  match findShiftTypeForOwner s shift_type_code user_id with
  | none => (.error .SHIFT_TYPE_NOT_FOUND, s)
  | some shift_type =>
    match findActiveTemplate s user_id with
    | none => (.error .TEMPLATE_NOT_FOUND, s)
    | some template =>
      match latestVersion s template.template_id with
      | none => (.error .TEMPLATE_NOT_FOUND, s)
      | some latest =>
        let res := findOrCreateSchedule s shift_type.shift_type_id
          latest.template_version_id
        let res2 := upsertWorkShiftRow res.2 user_id work_date
          res.1.schedule_id note
        (.ok res2.1, res2.2)

/-- The per-entry loop body of `batchUpsertWorkShifts` (steps 4-1 to 4-3 of
the source), threading the transaction state: look up the shift type by code
within the template (`INVALID_SHIFT_TYPE` with the code and date if absent),
resolve the version for the entry's own date (`TEMPLATE_VERSION_NOT_FOUND`
with the date if the template has no version at all), find or lazily create
the schedule, and upsert the work-shift row. -/
def processEntries (template_id user_id : Nat) :
    List BatchEntry → DBState → Except ServiceError (List WorkShift × DBState)
  | [], tx => .ok ([], tx)
  | e :: rest, tx =>
    match findShiftTypeInTemplate tx e.shift_type_code template_id with
    | none => .error (.INVALID_SHIFT_TYPE e.shift_type_code e.work_date)
    | some shift_type =>
      match resolveVersionForDate tx template_id e.work_date with
      | none => .error (.TEMPLATE_VERSION_NOT_FOUND e.work_date)
      | some valid_version =>
        let res := findOrCreateSchedule tx shift_type.shift_type_id
          valid_version.template_version_id
        let res2 := upsertWorkShiftRow res.2 user_id e.work_date
          res.1.schedule_id e.note
        match processEntries template_id user_id rest res2.2 with
        | .error err => .error err
        | .ok (ws, tx₃) => .ok (res2.1 :: ws, tx₃)

/-- `batchUpsertWorkShifts(user_id, work_shifts)`: reject duplicate dates
before anything else (`DUPLICATE_DATE` with the JS-computed offending dates),
resolve the active template (`TEMPLATE_NOT_FOUND`), then run the entry loop
inside one transaction; any entry failure rolls the transaction back (the
paired state is the pre-transaction state) and re-throws the first failing
entry's error.  The post-commit re-read that formats the response rows is
omitted: it reads committed state only and no claim depends on it. -/
def batchUpsertWorkShifts (s : DBState) (user_id : Nat)
    (entries : List BatchEntry) :
    Except ServiceError (List WorkShift) × DBState :=
  let dates := entries.map (·.work_date)
  if dates.length ≠ (insertionDedup dates).length then
    (.error (.DUPLICATE_DATE (jsDuplicateDates dates)), s)
  else
    match findActiveTemplate s user_id with
    | none => (.error .TEMPLATE_NOT_FOUND, s)
    | some template =>
      match processEntries template.template_id user_id entries s with
      | .error e => (.error e, s)
      | .ok (ws, s₁) => (.ok ws, s₁)

/-- Request body of `createShiftType` (after the controller folds absent
fields to `null`). -/
structure CreateShiftTypeData where
  code : String
  name : String
  color : Option Int
  start_time : Option String
  end_time : Option String
  sort_order : Option Int
deriving Repr, DecidableEq

/-- The record both shift-type mutations return. -/
structure ShiftTypeResult where
  shift_type_id : Nat
  code : String
  name : String
  color : Option Int
  sort_order : Option Int
  start_time : Option String
  end_time : Option String
  crosses_midnight : Bool
  duration_minutes : Int
deriving Repr, DecidableEq

/-- `ShiftType.max("sort_order")` over the template's live rows (SQL `MAX`
skips NULLs and is NULL over no rows). -/
def maxSortOrder (s : DBState) (template_id : Nat) : Option Int :=
  match (s.shift_types.filter fun st =>
      st.template_id = template_id ∧ st.deleted_at = none).filterMap
      (fun st => st.sort_order) with
  | [] => none
  | x :: xs => some (xs.foldl max x)

/-- `createShiftType(user_id, data)`: requires the active template, rejects
at ≥ 10 live shift types, defaults `sort_order` to `max + 1`, inserts the
shift-type row, computes the time info when both times are truthy (null
times otherwise), and always inserts a schedule row bound to the current
(latest) version — whose absence aborts with `TEMPLATE_NOT_FOUND`, rolling
the transaction back. -/
def createShiftType (s : DBState) (user_id : Nat)
    (data : CreateShiftTypeData) :
    Except ServiceError ShiftTypeResult × DBState :=
  match findActiveTemplate s user_id with
  | none => (.error .TEMPLATE_NOT_FOUND, s)
  | some template =>
    if 10 ≤ liveShiftTypeCount s template.template_id then
      (.error .MAX_SHIFT_TYPES_EXCEEDED, s)
    else
      let sort_order : Int :=
        match data.sort_order with
        | some v => v
        | none => (maxSortOrder s template.template_id).getD 0 + 1
      let shift_type : ShiftType :=
        ⟨s.next_id, template.template_id, data.code, data.name, data.color,
         some sort_order, none⟩
      let s₁ : DBState :=
        { s with shift_types := s.shift_types ++ [shift_type],
                 next_id := s.next_id + 1 }
      let timed := jsTruthy data.start_time && jsTruthy data.end_time
      let start_time := if timed then data.start_time else none
      let end_time := if timed then data.end_time else none
      let info := if timed then calculateTimeInfo data.start_time data.end_time
                  else ⟨false, 0⟩
      match latestVersion s₁ template.template_id with
      | none => (.error .TEMPLATE_NOT_FOUND, s)
      | some current_version =>
        let schedule : ShiftTypeSchedule :=
          ⟨s₁.next_id, shift_type.shift_type_id,
           current_version.template_version_id, start_time, end_time,
           info.crosses_midnight, info.duration_minutes⟩
        (.ok ⟨shift_type.shift_type_id, data.code, data.name, data.color,
              some sort_order, start_time, end_time, info.crosses_midnight,
              info.duration_minutes⟩,
         { s₁ with schedules := s₁.schedules ++ [schedule],
                   next_id := s₁.next_id + 1 })

/-- Request body of `updateShiftType`: the outer `Option` is
presence-in-request (`undefined` when `none`), the inner one is SQL null. -/
structure UpdateShiftTypeData where
  code : Option String
  name : Option String
  color : Option (Option Int)
  start_time : Option (Option String)
  end_time : Option (Option String)
  sort_order : Option (Option Int)
deriving Repr, DecidableEq

/-- Step 2 of `updateShiftType`: copy every field present in the request
onto the row. -/
def applyShiftTypeUpdates (st : ShiftType) (d : UpdateShiftTypeData) :
    ShiftType :=
  let st1 := match d.code with
    | some c => { st with code := c }
    | none => st
  let st2 := match d.name with
    | some n => { st1 with name := n }
    | none => st1
  let st3 := match d.color with
    | some c => { st2 with color := c }
    | none => st2
  match d.sort_order with
  | some o => { st3 with sort_order := o }
  | none => st3

def shiftTypeResult (st : ShiftType) (start_time end_time : Option String)
    (cm : Bool) (dm : Int) : ShiftTypeResult :=
  ⟨st.shift_type_id, st.code, st.name, st.color, st.sort_order,
   start_time, end_time, cm, dm⟩

/-- `updateShiftType(user_id, shift_type_id, data)`: ownership-checked field
update, then time handling against the current version's schedule row: both
times truthy updates-or-inserts the row with recomputed info; both present
but not both truthy zeroes the row in place when a live `WorkShift`
references it, deletes it when unreferenced, and is a no-op when the row is
absent; times absent from the request leave the schedule untouched and echo
its stored values. -/
def updateShiftType (s : DBState) (user_id shift_type_id : Nat)
    (d : UpdateShiftTypeData) :
    Except ServiceError ShiftTypeResult × DBState :=
  match findLiveShiftType s shift_type_id with
  | none => (.error .SHIFT_TYPE_NOT_FOUND, s)
  | some (shift_type, template) =>
    if template.owner_user_id ≠ user_id then
      (.error .FORBIDDEN, s)
    else
      let st' := applyShiftTypeUpdates shift_type d
      let s₁ : DBState :=
        { s with shift_types := s.shift_types.map fun x =>
            if x.shift_type_id = shift_type.shift_type_id then st' else x }
      match latestVersion s₁ template.template_id with
      | none => (.error .TEMPLATE_NOT_FOUND, s)
      | some current_version =>
        let existing := findSchedule s₁ shift_type_id
          current_version.template_version_id
        match d.start_time, d.end_time with
        | some st_in, some et_in =>
          if jsTruthy st_in && jsTruthy et_in then
            let info := calculateTimeInfo st_in et_in
            match existing with
            | some ex =>
              let ex' : ShiftTypeSchedule :=
                { ex with start_time := st_in, end_time := et_in,
                          crosses_midnight := info.crosses_midnight,
                          duration_minutes := info.duration_minutes }
              (.ok (shiftTypeResult st' st_in et_in info.crosses_midnight
                     info.duration_minutes),
               { s₁ with schedules := s₁.schedules.map fun sc =>
                   if sc.schedule_id = ex.schedule_id then ex' else sc })
            | none =>
              let nsc : ShiftTypeSchedule :=
                ⟨s₁.next_id, shift_type_id,
                 current_version.template_version_id, st_in, et_in,
                 info.crosses_midnight, info.duration_minutes⟩
              (.ok (shiftTypeResult st' st_in et_in info.crosses_midnight
                     info.duration_minutes),
               { s₁ with schedules := s₁.schedules ++ [nsc],
                         next_id := s₁.next_id + 1 })
          else
            match existing with
            | some ex =>
              if (s₁.work_shifts.find? fun w =>
                  w.schedule_id = ex.schedule_id ∧
                  w.deleted_at = none).isSome then
                let ex' : ShiftTypeSchedule :=
                  { ex with start_time := none, end_time := none,
                            crosses_midnight := false, duration_minutes := 0 }
                (.ok (shiftTypeResult st' none none false 0),
                 { s₁ with schedules := s₁.schedules.map fun sc =>
                     if sc.schedule_id = ex.schedule_id then ex' else sc })
              else
                (.ok (shiftTypeResult st' none none false 0),
                 { s₁ with schedules := s₁.schedules.filter fun sc =>
                     sc.schedule_id ≠ ex.schedule_id })
            | none => (.ok (shiftTypeResult st' none none false 0), s₁)
        | _, _ =>
          match existing with
          | some ex =>
            (.ok (shiftTypeResult st' ex.start_time ex.end_time
                   ex.crosses_midnight ex.duration_minutes), s₁)
          | none => (.ok (shiftTypeResult st' none none false 0), s₁)

/-- `deleteShiftType(user_id, shift_type_id)`: ownership-checked soft
delete; collects every schedule bound to the shift type across all versions
and rejects with `IN_USE` when any is referenced by a live work shift,
otherwise stamps `deleted_at` on the shift-type row only. -/
def deleteShiftType (s : DBState) (user_id shift_type_id now : Nat) :
    Except ServiceError (Nat × Nat) × DBState :=
  match findLiveShiftType s shift_type_id with
  | none => (.error .SHIFT_TYPE_NOT_FOUND, s)
  | some (shift_type, template) =>
    if template.owner_user_id ≠ user_id then
      (.error .FORBIDDEN, s)
    else
      let schedule_ids := (s.schedules.filter fun sc =>
        sc.shift_type_id = shift_type_id).map (fun sc => sc.schedule_id)
      let in_use :=
        if 0 < schedule_ids.length then
          (s.work_shifts.find? fun w =>
            w.schedule_id ∈ schedule_ids ∧ w.deleted_at = none).isSome
        else false
      if in_use then
        (.error .IN_USE, s)
      else
        (.ok (shift_type_id, now),
         { s with shift_types := s.shift_types.map fun x =>
             if x.shift_type_id = shift_type.shift_type_id then
               { x with deleted_at := some now } else x })

/-! ## Lemmas on the version picker -/

theorem pickLatest_eq_none : ∀ {l : List ShiftTemplateVersion},
    pickLatest l = none → l = [] := by
  intro l h
  cases l with
  | nil => rfl
  | cons a tl =>
    exfalso
    simp only [pickLatest] at h
    split at h
    · exact Option.noConfusion h
    · split at h <;> exact Option.noConfusion h

theorem pickLatest_mem : ∀ {l : List ShiftTemplateVersion}
    {v : ShiftTemplateVersion}, pickLatest l = some v → v ∈ l := by
  intro l
  induction l with
  | nil => intro v h; simp [pickLatest] at h
  | cons a tl ih =>
    intro v h
    simp only [pickLatest] at h
    split at h
    next =>
      cases h
      exact List.mem_cons_self a tl
    next w hw =>
      split at h
      · cases h
        exact List.mem_cons_self a tl
      · cases h
        exact List.mem_cons_of_mem a (ih hw)

theorem pickLatest_le : ∀ {l : List ShiftTemplateVersion}
    {v : ShiftTemplateVersion}, pickLatest l = some v →
    ∀ w ∈ l, w.effective_from ≤ v.effective_from := by
  intro l
  induction l with
  | nil => intro v _ w hw; exact absurd hw (List.not_mem_nil w)
  | cons a tl ih =>
    intro v h w hw
    simp only [pickLatest] at h
    split at h
    next hnone =>
      cases h
      have htl := pickLatest_eq_none hnone
      subst htl
      rcases List.mem_cons.mp hw with h1 | h1
      · rw [h1]
      · exact absurd h1 (List.not_mem_nil w)
    next u hu =>
      split at h
      next hc =>
        cases h
        rcases List.mem_cons.mp hw with h1 | h1
        · rw [h1]
        · exact le_trans (ih hu w h1) (Nat.le_of_lt hc)
      next hc =>
        cases h
        rcases List.mem_cons.mp hw with h1 | h1
        · rw [h1]; exact Nat.le_of_not_lt hc
        · exact ih hu w h1

theorem pickLatest_isSome {l : List ShiftTemplateVersion} (h : l ≠ []) :
    ∃ v, pickLatest l = some v := by
  cases hl : pickLatest l with
  | none => exact absurd (pickLatest_eq_none hl) h
  | some v => exact ⟨v, rfl⟩

/-- The date-qualified sublist of a template's versions. -/
def qualifyingVersions (s : DBState) (template_id work_date : Nat) :
    List ShiftTemplateVersion :=
  (versionsOf s template_id).filter fun v => v.effective_from ≤ work_date

theorem resolveVersionForDate_eq (s : DBState) (template_id work_date : Nat) :
    resolveVersionForDate s template_id work_date =
      match pickLatest (qualifyingVersions s template_id work_date) with
      | some v => some v
      | none => latestVersion s template_id := rfl

/-- C1 (amended): the batch's per-entry version resolver picks the version
with the greatest `effective_from` among those with
`effective_from ≤ work_date`; with no qualifying version it falls back to the
template's globally latest version; and when the template has no version at
all, the batch aborts with `TEMPLATE_VERSION_NOT_FOUND` carrying the entry's
date (not `TEMPLATE_NOT_FOUND`).  Entries straddling a version boundary
resolve to distinct versions. -/
theorem resolveVersionForDate_spec (s : DBState) (template_id : Nat) :
    (∀ work_date v, v ∈ versionsOf s template_id →
        v.effective_from ≤ work_date →
        ∃ r, resolveVersionForDate s template_id work_date = some r ∧
          r ∈ versionsOf s template_id ∧ r.effective_from ≤ work_date ∧
          ∀ w ∈ versionsOf s template_id, w.effective_from ≤ work_date →
            w.effective_from ≤ r.effective_from) ∧
    (∀ work_date, (∀ v ∈ versionsOf s template_id,
          ¬ v.effective_from ≤ work_date) →
        versionsOf s template_id ≠ [] →
        ∃ r, resolveVersionForDate s template_id work_date = some r ∧
          r ∈ versionsOf s template_id ∧
          ∀ w ∈ versionsOf s template_id,
            w.effective_from ≤ r.effective_from) ∧
    (∀ user_id t (e : BatchEntry) rest,
        findActiveTemplate s user_id = some t →
        t.template_id = template_id →
        versionsOf s template_id = [] →
        ((e :: rest).map (fun x => x.work_date)).length =
          (insertionDedup ((e :: rest).map (fun x => x.work_date))).length →
        findShiftTypeInTemplate s e.shift_type_code template_id ≠ none →
        batchUpsertWorkShifts s user_id (e :: rest) =
          (.error (.TEMPLATE_VERSION_NOT_FOUND e.work_date), s)) ∧
    (∀ d1 d2 v1 v2,
        resolveVersionForDate s template_id d1 = some v1 →
        resolveVersionForDate s template_id d2 = some v2 →
        v1.effective_from ≤ d1 → d1 < v2.effective_from →
        v1 ≠ v2) := by
  refine ⟨?_, ?_, ?_, ?_⟩
  · intro work_date v hv hle
    have hvq : v ∈ qualifyingVersions s template_id work_date :=
      List.mem_filter.mpr ⟨hv, by simpa using hle⟩
    obtain ⟨r, hr⟩ := pickLatest_isSome (List.ne_nil_of_mem hvq)
    have hrmem := pickLatest_mem hr
    refine ⟨r, ?_, (List.mem_filter.mp hrmem).1,
        by simpa using (List.mem_filter.mp hrmem).2, ?_⟩
    · rw [resolveVersionForDate_eq, hr]
    · intro w hw hwle
      exact pickLatest_le hr w (List.mem_filter.mpr ⟨hw, by simpa using hwle⟩)
  · intro work_date hnone hne
    have hq : qualifyingVersions s template_id work_date = [] :=
      List.filter_eq_nil_iff.mpr fun v hv => by simpa using hnone v hv
    obtain ⟨r, hr⟩ := pickLatest_isSome hne
    refine ⟨r, ?_, pickLatest_mem hr, fun w hw => pickLatest_le hr w hw⟩
    rw [resolveVersionForDate_eq, hq]
    simpa [pickLatest, latestVersion] using hr
  · intro user_id t e rest htempl htid hvers hnodup hst
    have hresolve : resolveVersionForDate s template_id e.work_date = none := by
      rw [resolveVersionForDate_eq]
      have hq : qualifyingVersions s template_id e.work_date = [] := by
        simp [qualifyingVersions, hvers]
      rw [hq]
      simp [pickLatest, latestVersion, hvers]
    obtain ⟨st, hstv⟩ := Option.ne_none_iff_exists'.mp hst
    simp only [batchUpsertWorkShifts]
    rw [if_neg (fun hcond => hcond hnodup), htempl]
    simp only [processEntries, htid, hstv, hresolve]
  · intro d1 d2 v1 v2 _ _ hle hlt hv
    subst hv
    exact absurd hle (Nat.not_le_of_lt hlt)

/-! ## Concrete states for witnesses and counterexamples -/

def demoTemplate : ShiftTemplate := ⟨1, 1, "default", none⟩

def demoDayType : ShiftType := ⟨2, 1, "D", "day", none, some 1, none⟩

/-- A template that owns a shift type but no version at all. -/
def noVersionState : DBState :=
  ⟨[demoTemplate], [], [demoDayType], [], [], 10⟩

def demoV1 : ShiftTemplateVersion := ⟨3, 1, 1, 10⟩

def demoV2 : ShiftTemplateVersion := ⟨4, 1, 2, 20⟩

/-- A template with two versions effective from day 10 and day 20. -/
def twoVersionState : DBState :=
  ⟨[demoTemplate], [demoV1, demoV2], [demoDayType], [], [], 10⟩

/-- C1 counterexample: on a template with no versions, the batch fails with
`TEMPLATE_VERSION_NOT_FOUND` carrying the entry's date — not with
`TEMPLATE_NOT_FOUND` as the claim states. -/
theorem batchUpsert_noVersion_counterexample :
    (batchUpsertWorkShifts noVersionState 1 [⟨5, "D", none⟩]).1
        = .error (.TEMPLATE_VERSION_NOT_FOUND 5) ∧
    (batchUpsertWorkShifts noVersionState 1 [⟨5, "D", none⟩]).1
        ≠ .error .TEMPLATE_NOT_FOUND := by
  constructor <;> decide

/-- C1 witness: on the two-version template, a date between the two
boundaries resolves to a qualifying, maximal version. -/
theorem resolveVersionForDate_spec_witness :
    ∃ r, resolveVersionForDate twoVersionState 1 15 = some r ∧
      r ∈ versionsOf twoVersionState 1 ∧ r.effective_from ≤ 15 ∧
      ∀ w ∈ versionsOf twoVersionState 1, w.effective_from ≤ 15 →
        w.effective_from ≤ r.effective_from :=
  (resolveVersionForDate_spec twoVersionState 1).1 15 demoV1
    (by decide) (by decide)

/-! ## Lemmas on the duplicate-date computation -/

theorem mem_insertionDedupAux (d : Nat) : ∀ (l seen : List Nat),
    d ∈ insertionDedupAux seen l ↔ d ∈ l ∧ d ∉ seen := by
  intro l
  induction l with
  | nil => intro seen; simp [insertionDedupAux]
  | cons a tl ih =>
    intro seen
    simp only [insertionDedupAux]
    by_cases ha : a ∈ seen
    · rw [if_pos ha, ih seen]
      constructor
      · rintro ⟨h1, h2⟩
        exact ⟨List.mem_cons_of_mem a h1, h2⟩
      · rintro ⟨h1, h2⟩
        rcases List.mem_cons.mp h1 with h3 | h3
        · exact absurd (h3 ▸ ha) h2
        · exact ⟨h3, h2⟩
    · rw [if_neg ha]
      rw [List.mem_cons, ih (seen ++ [a])]
      constructor
      · rintro (h | ⟨h1, h2⟩)
        · subst h
          exact ⟨List.mem_cons_self d tl, ha⟩
        · refine ⟨List.mem_cons_of_mem a h1, fun hc => h2 ?_⟩
          exact List.mem_append.mpr (Or.inl hc)
      · rintro ⟨h1, h2⟩
        by_cases hda : d = a
        · exact Or.inl hda
        · refine Or.inr ⟨?_, fun hc => ?_⟩
          · rcases List.mem_cons.mp h1 with h3 | h3
            · exact absurd h3 hda
            · exact h3
          · rcases List.mem_append.mp hc with h4 | h4
            · exact h2 h4
            · exact hda (List.mem_singleton.mp h4)

theorem mem_insertionDedup (d : Nat) (l : List Nat) :
    d ∈ insertionDedup l ↔ d ∈ l := by
  rw [insertionDedup, mem_insertionDedupAux]
  simp

theorem insertionDedupAux_length_le : ∀ (l seen : List Nat),
    (insertionDedupAux seen l).length ≤ l.length := by
  intro l
  induction l with
  | nil => intro seen; simp [insertionDedupAux]
  | cons a tl ih =>
    intro seen
    simp only [insertionDedupAux]
    by_cases ha : a ∈ seen
    · rw [if_pos ha]
      exact Nat.le_succ_of_le (ih seen)
    · rw [if_neg ha]
      simpa using Nat.succ_le_succ (ih (seen ++ [a]))

theorem insertionDedupAux_length_lt : ∀ (l seen : List Nat),
    (¬ l.Nodup ∨ ∃ x ∈ l, x ∈ seen) →
    (insertionDedupAux seen l).length < l.length := by
  intro l
  induction l with
  | nil =>
    intro seen h
    rcases h with h | ⟨x, hx, _⟩
    · exact absurd List.nodup_nil h
    · exact absurd hx (List.not_mem_nil x)
  | cons a tl ih =>
    intro seen h
    simp only [insertionDedupAux]
    by_cases ha : a ∈ seen
    · rw [if_pos ha]
      exact Nat.lt_succ_of_le (insertionDedupAux_length_le tl seen)
    · rw [if_neg ha]
      simp only [List.length_cons]
      refine Nat.succ_lt_succ (ih (seen ++ [a]) ?_)
      rcases h with h | ⟨x, hx, hxs⟩
      · by_cases hata : a ∈ tl
        · exact Or.inr ⟨a, hata, List.mem_append.mpr
            (Or.inr (List.mem_singleton.mpr rfl))⟩
        · exact Or.inl (fun hc => h (List.nodup_cons.mpr ⟨hata, hc⟩))
      · rcases List.mem_cons.mp hx with h1 | h1
        · exact absurd (h1 ▸ hxs) ha
        · exact Or.inr ⟨x, h1, List.mem_append.mpr (Or.inl hxs)⟩

theorem insertionDedupAux_eq_self : ∀ (l seen : List Nat), l.Nodup →
    (∀ x ∈ l, x ∉ seen) → insertionDedupAux seen l = l := by
  intro l
  induction l with
  | nil => intro seen _ _; rfl
  | cons a tl ih =>
    intro seen hnd hdisj
    simp only [insertionDedupAux]
    rw [if_neg (hdisj a (List.mem_cons_self a tl))]
    congr 1
    refine ih (seen ++ [a]) (List.nodup_cons.mp hnd).2 ?_
    intro x hx hc
    rcases List.mem_append.mp hc with h1 | h1
    · exact hdisj x (List.mem_cons_of_mem a hx) h1
    · exact (List.nodup_cons.mp hnd).1 (List.mem_singleton.mp h1 ▸ hx)

theorem insertionDedup_of_nodup {l : List Nat} (h : l.Nodup) :
    insertionDedup l = l :=
  insertionDedupAux_eq_self l [] h (by simp)

theorem insertionDedup_length_lt {l : List Nat} (h : ¬ l.Nodup) :
    (insertionDedup l).length < l.length :=
  insertionDedupAux_length_lt l [] (Or.inl h)

theorem mem_jsDuplicateDates (dates : List Nat) (d : Nat) :
    d ∈ jsDuplicateDates dates ↔ 2 ≤ dates.count d := by
  rw [jsDuplicateDates, mem_insertionDedup]
  constructor
  · intro h
    obtain ⟨⟨i, x⟩, hp, hpd⟩ := List.mem_map.mp h
    have hxd : x = d := hpd
    clear hpd
    subst x
    have hp' := List.mem_filter.mp hp
    have hik : dates.indexOf d ≠ i := by simpa using hp'.2
    obtain ⟨hi, hgi⟩ :=
      List.getElem?_eq_some_iff.mp (List.mk_mem_enum_iff_getElem?.mp hp'.1)
    have hd : d ∈ dates := by
      rw [← hgi]; exact List.getElem_mem hi
    have hk : dates.indexOf d < dates.length := List.indexOf_lt_length.mpr hd
    have hgk : dates.get ⟨dates.indexOf d, hk⟩ = d := List.indexOf_get hk
    rw [← List.duplicate_iff_two_le_count,
      List.duplicate_iff_exists_distinct_get]
    rcases Nat.lt_or_ge (dates.indexOf d) i with hlt | hge
    · exact ⟨⟨dates.indexOf d, hk⟩, ⟨i, hi⟩, hlt, hgk.symm,
        by rw [List.get_eq_getElem]; exact hgi.symm⟩
    · have hlt2 : i < dates.indexOf d :=
        Nat.lt_of_le_of_ne hge (fun hc => hik hc.symm)
      exact ⟨⟨i, hi⟩, ⟨dates.indexOf d, hk⟩, hlt2,
        by rw [List.get_eq_getElem]; exact hgi.symm, hgk.symm⟩
  · intro h
    obtain ⟨n, m, hnm, hn, hm⟩ :=
      List.duplicate_iff_exists_distinct_get.mp
        (List.duplicate_iff_two_le_count.mpr h)
    have hnm' : (n : Nat) < (m : Nat) := hnm
    by_cases hjn : dates.indexOf d = (n : Nat)
    · refine List.mem_map.mpr ⟨((m : Nat), d), List.mem_filter.mpr ⟨?_, ?_⟩, rfl⟩
      · refine List.mk_mem_enum_iff_getElem?.mpr
          (List.getElem?_eq_some_iff.mpr ⟨m.isLt, ?_⟩)
        rw [← List.get_eq_getElem]
        exact hm.symm
      · simp only [decide_eq_true_eq]
        omega
    · refine List.mem_map.mpr ⟨((n : Nat), d), List.mem_filter.mpr ⟨?_, ?_⟩, rfl⟩
      · refine List.mk_mem_enum_iff_getElem?.mpr
          (List.getElem?_eq_some_iff.mpr ⟨n.isLt, ?_⟩)
        rw [← List.get_eq_getElem]
        exact hn.symm
      · simp only [decide_eq_true_eq]
        exact hjn

/-- C3: a batch whose entry list repeats a `work_date` fails with
`DUPLICATE_DATE` carrying exactly the dates that occur more than once, and
the paired state is the caller's state unchanged, for **every** starting
state — the check precedes the template lookup and the transaction, so
nothing is read or written first. -/
theorem batchUpsert_duplicate_date (s : DBState) (user_id : Nat)
    (entries : List BatchEntry) (dup : Nat)
    (hdup : 2 ≤ (entries.map (fun e => e.work_date)).count dup) :
    batchUpsertWorkShifts s user_id entries =
      (.error (.DUPLICATE_DATE
        (jsDuplicateDates (entries.map (fun e => e.work_date)))), s) ∧
    (∀ d, d ∈ jsDuplicateDates (entries.map (fun e => e.work_date)) ↔
        2 ≤ (entries.map (fun e => e.work_date)).count d) := by
  have hnn : ¬ (entries.map (fun e => e.work_date)).Nodup := by
    intro hnd
    have := List.nodup_iff_count_le_one.mp hnd dup
    omega
  refine ⟨?_, fun d => mem_jsDuplicateDates _ d⟩
  simp only [batchUpsertWorkShifts]
  rw [if_pos (Nat.ne_of_gt (insertionDedup_length_lt hnn))]

/-- C3 witness: a concrete two-entry batch repeating day 5 fails with
`DUPLICATE_DATE [5]` and leaves the state untouched. -/
theorem batchUpsert_duplicate_date_witness :
    batchUpsertWorkShifts noVersionState 1 [⟨5, "D", none⟩, ⟨5, "E", none⟩] =
      (.error (.DUPLICATE_DATE [5]), noVersionState) :=
  ((batchUpsert_duplicate_date noVersionState 1
    [⟨5, "D", none⟩, ⟨5, "E", none⟩] 5 (by decide)).1).trans (by decide)

/-! ## Lemmas on the batch entry loop -/

/-- The entry loop only writes schedules and work shifts: templates,
versions and shift types are untouched by the transaction. -/
theorem processEntries_preserves_catalog (template_id user_id : Nat) :
    ∀ (l : List BatchEntry) (tx tx₃ : DBState) (ws : List WorkShift),
    processEntries template_id user_id l tx = .ok (ws, tx₃) →
    tx₃.templates = tx.templates ∧ tx₃.versions = tx.versions ∧
      tx₃.shift_types = tx.shift_types := by
  intro l
  induction l with
  | nil =>
    intro tx tx₃ ws h
    simp only [processEntries] at h
    cases h
    exact ⟨rfl, rfl, rfl⟩
  | cons e tl ih =>
    intro tx tx₃ ws h
    simp only [processEntries] at h
    split at h
    · exact absurd h (by simp)
    · split at h
      · exact absurd h (by simp)
      · split at h
        · exact absurd h (by simp)
        next ws2 tx2 hrec =>
          cases h
          have h1 := ih _ _ _ hrec
          simp only [upsertWorkShiftRow, findOrCreateSchedule] at h1
          split at h1 <;> split at h1 <;> simp_all

/-- Splitting the entry loop at a prefix that succeeds. -/
theorem processEntries_append (template_id user_id : Nat) :
    ∀ (pre rest : List BatchEntry) (tx tx₁ : DBState) (ws : List WorkShift),
    processEntries template_id user_id pre tx = .ok (ws, tx₁) →
    processEntries template_id user_id (pre ++ rest) tx =
      match processEntries template_id user_id rest tx₁ with
      | .error err => .error err
      | .ok (ws2, tx₂) => .ok (ws ++ ws2, tx₂) := by
  intro pre
  induction pre with
  | nil =>
    intro rest tx tx₁ ws h
    simp only [processEntries] at h
    cases h
    simp only [List.nil_append]
    cases hr : processEntries template_id user_id rest tx with
    | error err => simp
    | ok p => simp
  | cons e tl ih =>
    intro rest tx tx₁ ws h
    simp only [processEntries, List.cons_append] at h ⊢
    cases hfind : findShiftTypeInTemplate tx e.shift_type_code template_id with
    | none =>
      rw [hfind] at h
      exact absurd h (by simp)
    | some st =>
      simp only [hfind] at h ⊢
      cases hres : resolveVersionForDate tx template_id e.work_date with
      | none =>
        rw [hres] at h
        exact absurd h (by simp)
      | some vv =>
        simp only [hres] at h ⊢
        cases hrec : processEntries template_id user_id tl
            (upsertWorkShiftRow
              (findOrCreateSchedule tx st.shift_type_id
                vv.template_version_id).2 user_id e.work_date
              (findOrCreateSchedule tx st.shift_type_id
                vv.template_version_id).1.schedule_id e.note).2 with
        | error err =>
          rw [hrec] at h
          exact absurd h (by simp)
        | ok p =>
          rw [hrec] at h
          obtain ⟨q, tx2⟩ := p
          obtain ⟨rfl, rfl⟩ : (upsertWorkShiftRow
              (findOrCreateSchedule tx st.shift_type_id
                vv.template_version_id).2 user_id e.work_date
              (findOrCreateSchedule tx st.shift_type_id
                vv.template_version_id).1.schedule_id e.note).1 :: q = ws ∧
              tx2 = tx₁ := by
            simpa using h
          simp only [List.append_eq]
          rw [ih rest _ _ _ hrec]
          cases hr : processEntries template_id user_id rest tx2 with
          | error err => rfl
          | ok p2 => rfl

/-- C2: if every entry before some offending entry succeeds and the
offending entry's shift-type code does not name a live shift type of the
template, the whole batch returns that entry's `INVALID_SHIFT_TYPE` error —
with its code and date — and the paired state is the caller's original
state: none of the work-shift rows or lazily created schedule rows written
for the earlier entries inside the transaction survives the rollback. -/
theorem batchUpsert_rollback_on_invalid (s : DBState) (user_id : Nat)
    (t : ShiftTemplate) (pre rest : List BatchEntry) (bad : BatchEntry)
    (ws : List WorkShift) (s₁ : DBState)
    (hnodup : ((pre ++ bad :: rest).map (fun e => e.work_date)).Nodup)
    (htempl : findActiveTemplate s user_id = some t)
    (hpre : processEntries t.template_id user_id pre s = .ok (ws, s₁))
    (hbad : findShiftTypeInTemplate s bad.shift_type_code t.template_id
      = none) :
    batchUpsertWorkShifts s user_id (pre ++ bad :: rest) =
      (.error (.INVALID_SHIFT_TYPE bad.shift_type_code bad.work_date), s) := by
  have hcat := processEntries_preserves_catalog t.template_id user_id pre
    s s₁ ws hpre
  have hbad1 : findShiftTypeInTemplate s₁ bad.shift_type_code t.template_id
      = none := by
    unfold findShiftTypeInTemplate at hbad ⊢
    rw [hcat.2.2]
    exact hbad
  simp only [batchUpsertWorkShifts]
  rw [if_neg (fun hne => hne
      (by rw [insertionDedup_of_nodup hnodup]))]
  simp only [htempl]
  rw [processEntries_append t.template_id user_id pre (bad :: rest) s s₁
    ws hpre]
  simp only [processEntries, hbad1]

/-- The transaction state after the first (valid) entry of the C2 witness
batch: one lazily created schedule row and one upserted work-shift row. -/
def afterFirstEntryState : DBState :=
  ⟨[demoTemplate], [demoV1, demoV2], [demoDayType],
   [⟨10, 2, 4, none, none, false, 0⟩],
   [⟨11, 1, 5, 10, none, 0, 1, none, none⟩], 12⟩

/-- C2 witness: a concrete two-entry batch whose second entry has the
unknown code `X` fails with `INVALID_SHIFT_TYPE "X" 6` and leaves the
database exactly as before the call. -/
theorem batchUpsert_rollback_on_invalid_witness :
    batchUpsertWorkShifts twoVersionState 1 [⟨5, "D", none⟩, ⟨6, "X", none⟩] =
      (.error (.INVALID_SHIFT_TYPE "X" 6), twoVersionState) :=
  batchUpsert_rollback_on_invalid twoVersionState 1 demoTemplate
    [⟨5, "D", none⟩] [] ⟨6, "X", none⟩
    [⟨11, 1, 5, 10, none, 0, 1, none, none⟩] afterFirstEntryState
    (by decide) (by decide) (by decide) (by decide)

/-- C6: creating a shift type on a template that already holds 10 live
shift types fails with `MAX_SHIFT_TYPES_EXCEEDED`, the paired state is the
original state (no `ShiftType` or `ShiftTypeSchedule` row is created), and
the live count stays 10. -/
theorem createShiftType_capacity (s : DBState) (user_id : Nat)
    (t : ShiftTemplate) (data : CreateShiftTypeData)
    (htempl : findActiveTemplate s user_id = some t)
    (hcount : liveShiftTypeCount s t.template_id = 10) :
    createShiftType s user_id data = (.error .MAX_SHIFT_TYPES_EXCEEDED, s) ∧
    liveShiftTypeCount (createShiftType s user_id data).2 t.template_id
      = 10 := by
  have h1 : createShiftType s user_id data =
      (.error .MAX_SHIFT_TYPES_EXCEEDED, s) := by
    simp only [createShiftType, htempl]
    rw [if_pos (by omega)]
  exact ⟨h1, by rw [h1]; exact hcount⟩

/-- A template with a version and exactly 10 live shift types. -/
def tenTypesState : DBState :=
  ⟨[demoTemplate], [demoV1],
   (List.range 10).map (fun i => ⟨20 + i, 1, toString i, "t", none,
     some 1, none⟩),
   [], [], 100⟩

/-- C6 witness: an 11th shift type on the full template is rejected and the
state — hence the live count — is unchanged. -/
theorem createShiftType_capacity_witness :
    createShiftType tenTypesState 1 ⟨"NEW", "n", none, none, none, none⟩ =
      (.error .MAX_SHIFT_TYPES_EXCEEDED, tenTypesState) :=
  (createShiftType_capacity tenTypesState 1 demoTemplate
    ⟨"NEW", "n", none, none, none, none⟩ (by decide) (by decide)).1

/-- `latestVersion` reads only the `versions` table, so updates to the
shift-type table and the id counter do not change it. -/
theorem latestVersion_shift_types_irrelevant (s : DBState)
    (l : List ShiftType) (n : Nat) (tid : Nat) :
    latestVersion { s with shift_types := l, next_id := n } tid =
      latestVersion s tid := rfl

/-- C9 counterexample: supplying a start time without an end time is **not**
rejected — `createShiftType` succeeds, silently storing null times with zero
duration. -/
theorem createShiftType_one_sided_counterexample :
    (createShiftType twoVersionState 1
      ⟨"X", "x", none, some "09:00:00", none, none⟩).1.isOk = true ∧
    (createShiftType twoVersionState 1
      ⟨"X", "x", none, some "09:00:00", none, none⟩).1 =
      .ok ⟨10, "X", "x", none, some 2, none, none, false, 0⟩ := by
  constructor <;> decide

/-- C9 (amended): supplying exactly one of start time and end time is
accepted, not rejected: `createShiftType` succeeds and silently treats the
pair as absent — the returned record and the created schedule row carry null
times, `crosses_midnight = false` and `duration_minutes = 0` — and
`calculateTimeInfo` itself maps such a pair to the zero record. -/
theorem createShiftType_one_sided (s : DBState) (user_id : Nat)
    (t : ShiftTemplate) (cv : ShiftTemplateVersion)
    (data : CreateShiftTypeData)
    (htempl : findActiveTemplate s user_id = some t)
    (hcount : liveShiftTypeCount s t.template_id < 10)
    (hver : latestVersion s t.template_id = some cv)
    (hone : jsTruthy data.start_time ≠ jsTruthy data.end_time) :
    (∃ r s', createShiftType s user_id data = (.ok r, s') ∧
      r.start_time = none ∧ r.end_time = none ∧
      r.crosses_midnight = false ∧ r.duration_minutes = 0 ∧
      ∃ sc ∈ s'.schedules, sc.shift_type_id = s.next_id ∧
        sc.start_time = none ∧ sc.end_time = none ∧
        sc.crosses_midnight = false ∧ sc.duration_minutes = 0) ∧
    calculateTimeInfo data.start_time data.end_time = ⟨false, 0⟩ := by
  have htimed : (jsTruthy data.start_time && jsTruthy data.end_time)
      = false := by
    cases h1 : jsTruthy data.start_time <;>
      cases h2 : jsTruthy data.end_time <;> simp_all
  have hfalsy : jsTruthy data.start_time = false ∨
      jsTruthy data.end_time = false := by
    cases h1 : jsTruthy data.start_time <;>
      cases h2 : jsTruthy data.end_time <;> simp_all
  constructor
  · simp only [createShiftType, htempl]
    rw [if_neg (by omega)]
    rw [htimed]
    rw [latestVersion_shift_types_irrelevant, hver]
    simp only [Bool.false_eq_true, if_neg]
    refine ⟨_, _, rfl, rfl, rfl, rfl, rfl, ?_⟩
    refine ⟨_, List.mem_append.mpr (Or.inr (List.mem_singleton.mpr rfl)),
      rfl, rfl, rfl, rfl, rfl⟩
  · unfold calculateTimeInfo
    rw [if_pos (by simpa using hfalsy)]

/-- C9 witness: a concrete one-sided creation on the two-version template
succeeds with null times and a zero-duration schedule row. -/
theorem createShiftType_one_sided_witness :
    (∃ r s', createShiftType twoVersionState 1
        ⟨"X", "x", none, some "09:00:00", none, none⟩ = (.ok r, s') ∧
      r.start_time = none ∧ r.end_time = none ∧
      r.crosses_midnight = false ∧ r.duration_minutes = 0 ∧
      ∃ sc ∈ s'.schedules, sc.shift_type_id = twoVersionState.next_id ∧
        sc.start_time = none ∧ sc.end_time = none ∧
        sc.crosses_midnight = false ∧ sc.duration_minutes = 0) ∧
    calculateTimeInfo (some "09:00:00") none = ⟨false, 0⟩ :=
  createShiftType_one_sided twoVersionState 1 demoTemplate demoV2
    ⟨"X", "x", none, some "09:00:00", none, none⟩
    (by decide) (by decide) (by decide) (by decide)

/-- Some live `WorkShift` references some schedule bound to the shift type
(across all template versions). -/
def referencedByLiveWorkShift (s : DBState) (shift_type_id : Nat) : Prop :=
  ∃ w ∈ s.work_shifts, w.deleted_at = none ∧
    ∃ sc ∈ s.schedules, sc.shift_type_id = shift_type_id ∧
      w.schedule_id = sc.schedule_id

theorem findLiveShiftType_inv {s : DBState} {shift_type_id : Nat}
    {st : ShiftType} {t : ShiftTemplate}
    (h : findLiveShiftType s shift_type_id = some (st, t)) :
    st ∈ s.shift_types ∧ st.shift_type_id = shift_type_id ∧
      st.deleted_at = none := by
  unfold findLiveShiftType at h
  cases hst : s.shift_types.find? fun x =>
      x.shift_type_id = shift_type_id ∧ x.deleted_at = none with
  | none => rw [hst] at h; exact absurd h (by simp)
  | some st0 =>
    simp only [hst] at h
    cases ht : s.templates.find? fun x => x.template_id = st0.template_id with
    | none => rw [ht] at h; exact absurd h (by simp)
    | some t0 =>
      rw [ht] at h
      have hst0 : st0 = st := by
        have := congrArg (fun p => (Option.map Prod.fst p).getD st0) h
        simpa using this
      subst hst0
      have hmem := List.mem_of_find?_eq_some hst
      have hprop := List.find?_some hst
      simp only [decide_eq_true_eq] at hprop
      exact ⟨hmem, hprop.1, hprop.2⟩

/-- C7: with the shift type found and owned by the caller, `deleteShiftType`
fails with `IN_USE` **iff** some live work shift references a schedule bound
to the shift type across any version (rolling nothing forward: the paired
state is unchanged); with no such reference it succeeds, stamping
`deleted_at` on the shift-type row while leaving every schedule row and
every work-shift row untouched. -/
theorem deleteShiftType_spec (s : DBState) (user_id shift_type_id now : Nat)
    (st : ShiftType) (t : ShiftTemplate)
    (hfind : findLiveShiftType s shift_type_id = some (st, t))
    (hown : t.owner_user_id = user_id) :
    ((deleteShiftType s user_id shift_type_id now).1 = .error .IN_USE ↔
      referencedByLiveWorkShift s shift_type_id) ∧
    (referencedByLiveWorkShift s shift_type_id →
      (deleteShiftType s user_id shift_type_id now).2 = s) ∧
    (¬ referencedByLiveWorkShift s shift_type_id →
      deleteShiftType s user_id shift_type_id now =
        (.ok (shift_type_id, now),
         { s with shift_types := s.shift_types.map fun x =>
             if x.shift_type_id = st.shift_type_id then
               { x with deleted_at := some now } else x }) ∧
      (deleteShiftType s user_id shift_type_id now).2.schedules
        = s.schedules ∧
      (deleteShiftType s user_id shift_type_id now).2.work_shifts
        = s.work_shifts ∧
      ∃ x ∈ (deleteShiftType s user_id shift_type_id now).2.shift_types,
        x.shift_type_id = shift_type_id ∧ x.deleted_at = some now) := by
  obtain ⟨hstmem, hstid, _⟩ := findLiveShiftType_inv hfind
  have hresolve : deleteShiftType s user_id shift_type_id now =
      (if (if 0 < ((s.schedules.filter fun sc =>
            sc.shift_type_id = shift_type_id).map
            (fun sc => sc.schedule_id)).length then
          (s.work_shifts.find? fun w =>
            w.schedule_id ∈ ((s.schedules.filter fun sc =>
              sc.shift_type_id = shift_type_id).map
              (fun sc => sc.schedule_id)) ∧
            w.deleted_at = none).isSome
        else false) then
        (.error .IN_USE, s)
      else
        (.ok (shift_type_id, now),
         { s with shift_types := s.shift_types.map fun x =>
             if x.shift_type_id = st.shift_type_id then
               { x with deleted_at := some now } else x })) := by
    simp only [deleteShiftType, hfind]
    rw [if_neg (fun hc => hc hown)]
  have hiff : (if 0 < ((s.schedules.filter fun sc =>
        sc.shift_type_id = shift_type_id).map
        (fun sc => sc.schedule_id)).length then
      (s.work_shifts.find? fun w =>
        w.schedule_id ∈ ((s.schedules.filter fun sc =>
          sc.shift_type_id = shift_type_id).map
          (fun sc => sc.schedule_id)) ∧
        w.deleted_at = none).isSome
    else false) = true ↔ referencedByLiveWorkShift s shift_type_id := by
    constructor
    · intro h
      by_cases hlen : 0 < ((s.schedules.filter fun sc =>
          sc.shift_type_id = shift_type_id).map
          (fun sc => sc.schedule_id)).length
      · rw [if_pos hlen] at h
        obtain ⟨w, hw, hp⟩ := List.find?_isSome.mp h
        simp only [decide_eq_true_eq] at hp
        obtain ⟨hmemids, hdel⟩ := hp
        obtain ⟨sc, hscf, hscid⟩ := List.mem_map.mp hmemids
        have hsc := List.mem_filter.mp hscf
        exact ⟨w, hw, hdel, sc, hsc.1, by simpa using hsc.2, hscid.symm⟩
      · rw [if_neg hlen] at h
        exact absurd h (by simp)
    · rintro ⟨w, hw, hdel, sc, hscmem, hsct, hwsc⟩
      have hscf : sc ∈ s.schedules.filter fun x =>
          x.shift_type_id = shift_type_id :=
        List.mem_filter.mpr ⟨hscmem, by simpa using hsct⟩
      have hmemids : sc.schedule_id ∈ (s.schedules.filter fun x =>
          x.shift_type_id = shift_type_id).map (fun x => x.schedule_id) :=
        List.mem_map.mpr ⟨sc, hscf, rfl⟩
      have hlen : 0 < ((s.schedules.filter fun x =>
          x.shift_type_id = shift_type_id).map
          (fun x => x.schedule_id)).length :=
        List.length_pos.mpr (List.ne_nil_of_mem hmemids)
      rw [if_pos hlen]
      exact List.find?_isSome.mpr ⟨w, hw, by simp [hwsc ▸ hmemids, hdel]⟩
  by_cases href : referencedByLiveWorkShift s shift_type_id
  · have htrue := hiff.mpr href
    rw [hresolve, if_pos htrue]
    exact ⟨⟨fun _ => href, fun _ => rfl⟩, fun _ => rfl,
      fun hc => absurd href hc⟩
  · have hfalse : ¬ ((if 0 < ((s.schedules.filter fun sc =>
        sc.shift_type_id = shift_type_id).map
        (fun sc => sc.schedule_id)).length then
      (s.work_shifts.find? fun w =>
        w.schedule_id ∈ ((s.schedules.filter fun sc =>
          sc.shift_type_id = shift_type_id).map
          (fun sc => sc.schedule_id)) ∧
        w.deleted_at = none).isSome
    else false) = true) := fun hc => href (hiff.mp hc)
    rw [hresolve, if_neg hfalse]
    refine ⟨⟨fun hc => absurd hc (by simp), fun hr =>
      absurd hr href⟩, fun hr => absurd hr href, fun _ => ⟨rfl, rfl, rfl, ?_⟩⟩
    refine ⟨{ st with deleted_at := some now }, ?_, by simpa using hstid, rfl⟩
    have := List.mem_map_of_mem (fun x : ShiftType =>
      if x.shift_type_id = st.shift_type_id then
        { x with deleted_at := some now } else x) hstmem
    simpa using this

/-- A state with one schedule bound to the demo shift type and no work
shift referencing it. -/
def schedState : DBState :=
  ⟨[demoTemplate], [demoV1, demoV2], [demoDayType],
   [⟨6, 2, 4, some "06:30:00", some "15:00:00", false, 510⟩], [], 10⟩

/-- C7 witness: deleting the unreferenced demo shift type succeeds, stamps
`deleted_at` and leaves the schedule row in place. -/
theorem deleteShiftType_spec_witness :
    deleteShiftType schedState 1 2 99 =
      (.ok (2, 99),
       ⟨[demoTemplate], [demoV1, demoV2],
        [⟨2, 1, "D", "day", none, some 1, some 99⟩],
        [⟨6, 2, 4, some "06:30:00", some "15:00:00", false, 510⟩],
        [], 10⟩) :=
  (((deleteShiftType_spec schedState 1 2 99 demoDayType demoTemplate
    (by decide) (by decide)).2.2
      (by unfold referencedByLiveWorkShift; decide)).1).trans (by decide)

/-- C8: time handling of `updateShiftType` against the current version's
existing schedule row.  Setting both time fields to null while a live work
shift references the row zeroes the row in place — same row id, null times,
no crossing, zero duration, row count unchanged; setting both to null while
unreferenced deletes the row; omitting both time fields leaves the schedule
table — hence the row's stored values — unchanged. -/
theorem updateShiftType_time_cases (s : DBState)
    (user_id shift_type_id : Nat) (st : ShiftType) (t : ShiftTemplate)
    (cv : ShiftTemplateVersion) (ex : ShiftTypeSchedule)
    (d : UpdateShiftTypeData)
    (hfind : findLiveShiftType s shift_type_id = some (st, t))
    (hown : t.owner_user_id = user_id)
    (hver : latestVersion s t.template_id = some cv)
    (hex : findSchedule s shift_type_id cv.template_version_id = some ex) :
    (d.start_time = some none → d.end_time = some none →
      ((∃ w ∈ s.work_shifts, w.schedule_id = ex.schedule_id ∧
          w.deleted_at = none) →
        (updateShiftType s user_id shift_type_id d).2.schedules =
          s.schedules.map (fun sc =>
            if sc.schedule_id = ex.schedule_id then
              { ex with start_time := none, end_time := none,
                        crosses_midnight := false, duration_minutes := 0 }
            else sc) ∧
        (updateShiftType s user_id shift_type_id d).2.schedules.length =
          s.schedules.length ∧
        ∃ sc2 ∈ (updateShiftType s user_id shift_type_id d).2.schedules,
          sc2.schedule_id = ex.schedule_id ∧ sc2.start_time = none ∧
          sc2.end_time = none ∧ sc2.crosses_midnight = false ∧
          sc2.duration_minutes = 0) ∧
      ((¬ ∃ w ∈ s.work_shifts, w.schedule_id = ex.schedule_id ∧
          w.deleted_at = none) →
        (updateShiftType s user_id shift_type_id d).2.schedules =
          s.schedules.filter
            (fun sc => sc.schedule_id ≠ ex.schedule_id))) ∧
    (d.start_time = none → d.end_time = none →
      (updateShiftType s user_id shift_type_id d).2.schedules =
        s.schedules) := by
  have hown' : ¬ (t.owner_user_id ≠ user_id) := fun hc => hc hown
  have hver1 : latestVersion
      { s with shift_types := s.shift_types.map fun x =>
          if x.shift_type_id = st.shift_type_id then
            applyShiftTypeUpdates st d else x } t.template_id
      = some cv := hver
  have hex1 : findSchedule
      { s with shift_types := s.shift_types.map fun x =>
          if x.shift_type_id = st.shift_type_id then
            applyShiftTypeUpdates st d else x } shift_type_id
      cv.template_version_id = some ex := hex
  refine ⟨fun h1 h2 => ⟨fun href => ?_, fun href => ?_⟩, fun h1 h2 => ?_⟩
  · have hsome : ((s.work_shifts.find? fun w =>
        w.schedule_id = ex.schedule_id ∧ w.deleted_at = none).isSome
        = true) := by
      refine List.find?_isSome.mpr ?_
      obtain ⟨w, hw, h3, h4⟩ := href
      exact ⟨w, hw, by simp [h3, h4]⟩
    have hres : (updateShiftType s user_id shift_type_id d).2.schedules =
        s.schedules.map (fun sc =>
          if sc.schedule_id = ex.schedule_id then
            { ex with start_time := none, end_time := none,
                      crosses_midnight := false, duration_minutes := 0 }
          else sc) := by
      simp only [updateShiftType, hfind]
      rw [if_neg hown']
      simp only [hver1, hex1, h1, h2, jsTruthy, Bool.and_self]
      rw [if_neg (by simp)]
      rw [if_pos hsome]
    refine ⟨hres, by rw [hres]; exact List.length_map _ _, ?_⟩
    have hexmem : ex ∈ s.schedules := List.mem_of_find?_eq_some hex
    have hmem2 := List.mem_map_of_mem (fun sc : ShiftTypeSchedule =>
      if sc.schedule_id = ex.schedule_id then
        { ex with start_time := none, end_time := none,
                  crosses_midnight := false, duration_minutes := 0 }
      else sc) hexmem
    have hmem3 : ({ ex with start_time := none, end_time := none,
                            crosses_midnight := false,
                            duration_minutes := 0 } : ShiftTypeSchedule) ∈
        s.schedules.map (fun sc =>
          if sc.schedule_id = ex.schedule_id then
            { ex with start_time := none, end_time := none,
                      crosses_midnight := false, duration_minutes := 0 }
          else sc) := by
      simpa using hmem2
    rw [hres]
    exact ⟨_, hmem3, rfl, rfl, rfl, rfl, rfl⟩
  · have hnone : ¬ ((s.work_shifts.find? fun w =>
        w.schedule_id = ex.schedule_id ∧ w.deleted_at = none).isSome
        = true) := by
      intro hc
      obtain ⟨w, hw, hp⟩ := List.find?_isSome.mp hc
      simp only [decide_eq_true_eq] at hp
      exact href ⟨w, hw, hp.1, hp.2⟩
    simp only [updateShiftType, hfind]
    rw [if_neg hown']
    simp only [hver1, hex1, h1, h2, jsTruthy, Bool.and_self]
    rw [if_neg (by simp)]
    rw [if_neg hnone]
  · simp only [updateShiftType, hfind]
    rw [if_neg hown']
    simp only [hver1, hex1, h1, h2]

/-- C8 witness: nulling both times on the unreferenced demo schedule deletes
the row — the schedule table ends up empty. -/
theorem updateShiftType_time_cases_witness :
    (updateShiftType schedState 1 2
      ⟨none, none, none, some none, some none, none⟩).2.schedules = [] := by
  have h := ((updateShiftType_time_cases schedState 1 2 demoDayType
    demoTemplate demoV2
    ⟨6, 2, 4, some "06:30:00", some "15:00:00", false, 510⟩
    ⟨none, none, none, some none, some none, none⟩
    (by decide) (by decide) (by decide) (by decide)).1 rfl rfl).2
      (by decide)
  rw [h]
  decide

/-! ## Lemmas on the work-shift upsert -/

/-- All rows for one `(owner, work_date)` key. -/
def rowsForKey (l : List WorkShift) (user_id work_date : Nat) :
    List WorkShift :=
  l.filter fun w => w.owner_user_id = user_id ∧ w.work_date = work_date

/-- The live (non-soft-deleted) rows for one `(owner, work_date)` key. -/
def liveRowsForKey (l : List WorkShift) (user_id work_date : Nat) :
    List WorkShift :=
  (rowsForKey l user_id work_date).filter fun w => w.deleted_at = none

/-- The store invariants on the work-shift table that the schema enforces:
fresh ids are really fresh, primary keys are unique, and the
`(owner_user_id, work_date)` unique constraint holds. -/
def WorkShiftsWF (s : DBState) : Prop :=
  (∀ w ∈ s.work_shifts, w.work_shift_id < s.next_id) ∧
  s.work_shifts.Pairwise (fun a b => a.work_shift_id ≠ b.work_shift_id) ∧
  (∀ a ∈ s.work_shifts, ∀ b ∈ s.work_shifts,
    a.owner_user_id = b.owner_user_id → a.work_date = b.work_date → a = b)

theorem filter_map_replace (p : WorkShift → Bool) (w0 w' : WorkShift)
    (hid : w'.work_shift_id = w0.work_shift_id) :
    ∀ (l : List WorkShift),
    l.Pairwise (fun a b => a.work_shift_id ≠ b.work_shift_id) →
    w0 ∈ l → p w' = true →
    (∀ x ∈ l, x ≠ w0 → p x = false) →
    (l.map fun x =>
      if x.work_shift_id = w0.work_shift_id then w' else x).filter p
      = [w'] := by
  intro l
  induction l with
  | nil => intro _ hmem; exact absurd hmem (List.not_mem_nil w0)
  | cons a tl ih =>
    intro hpw hmem hpw' hothers
    have hpairs := List.pairwise_cons.mp hpw
    by_cases ha : a = w0
    · subst ha
      simp only [List.map_cons, if_pos rfl, List.filter_cons, hpw',
        if_pos trivial]
      have hmap : (tl.map fun x =>
          if x.work_shift_id = a.work_shift_id then w' else x) = tl := by
        have hcg := List.map_congr_left (l := tl)
          (f := fun x : WorkShift =>
            if x.work_shift_id = a.work_shift_id then w' else x)
          (g := id) (fun x hx => by
            show (if x.work_shift_id = a.work_shift_id then w' else x) = x
            rw [if_neg (fun hc => hpairs.1 x hx hc.symm)])
        rw [hcg, List.map_id]
      rw [hmap]
      have hnil : tl.filter p = [] := by
        refine List.filter_eq_nil_iff.mpr fun x hx hc => ?_
        have hxne : x ≠ a := fun he => hpairs.1 x hx (he ▸ rfl)
        rw [hothers x (List.mem_cons_of_mem a hx) hxne] at hc
        exact Bool.noConfusion hc
      rw [hnil]
    · have hmem' : w0 ∈ tl := by
        rcases List.mem_cons.mp hmem with h | h
        · exact absurd h.symm ha
        · exact h
      have haid : ¬ a.work_shift_id = w0.work_shift_id :=
        hpairs.1 w0 hmem'
      have hpa : p a = false := hothers a (List.mem_cons_self a tl) ha
      simp only [List.map_cons, if_neg haid, List.filter_cons, hpa]
      simp only [Bool.false_eq_true, if_neg]
      exact ih hpairs.2 hmem' hpw'
        (fun x hx hxn => hothers x (List.mem_cons_of_mem a hx) hxn)

theorem upsertWorkShiftRow_spec (s : DBState) (u date sid : Nat)
    (note : Option String) (hwf : WorkShiftsWF s) :
    (upsertWorkShiftRow s u date sid note).1.owner_user_id = u ∧
    (upsertWorkShiftRow s u date sid note).1.work_date = date ∧
    (upsertWorkShiftRow s u date sid note).1.schedule_id = sid ∧
    (upsertWorkShiftRow s u date sid note).1.note = jsOrNull note ∧
    (upsertWorkShiftRow s u date sid note).1.deleted_at = none ∧
    rowsForKey (upsertWorkShiftRow s u date sid note).2.work_shifts u date
      = [(upsertWorkShiftRow s u date sid note).1] ∧
    WorkShiftsWF (upsertWorkShiftRow s u date sid note).2 := by
  obtain ⟨hbound, hpair, hkey⟩ := hwf
  cases hf : s.work_shifts.find? fun w =>
      w.owner_user_id = u ∧ w.work_date = date with
  | none =>
    have hres : upsertWorkShiftRow s u date sid note =
        (⟨s.next_id, u, date, sid, jsOrNull note, 0, u, none, none⟩,
         { s with
             work_shifts := s.work_shifts ++
               [⟨s.next_id, u, date, sid, jsOrNull note, 0, u, none, none⟩],
             next_id := s.next_id + 1 }) := by
      simp only [upsertWorkShiftRow, hf]
    rw [hres]
    have hempty : s.work_shifts.filter (fun w =>
        w.owner_user_id = u ∧ w.work_date = date) = [] :=
      List.filter_eq_nil_iff.mpr (List.find?_eq_none.mp hf)
    refine ⟨rfl, rfl, rfl, rfl, rfl, ?_, ?_, ?_, ?_⟩
    · simp only [rowsForKey, List.filter_append, hempty]
      simp
    · intro w hw
      rcases List.mem_append.mp hw with h | h
      · exact Nat.lt_succ_of_lt (hbound w h)
      · rw [List.mem_singleton.mp h]
        exact Nat.lt_succ_self _
    · rw [List.pairwise_append]
      refine ⟨hpair, by simp, fun a ha b hb => ?_⟩
      rw [List.mem_singleton.mp hb]
      exact Nat.ne_of_lt (hbound a ha)
    · intro a ha b hb h1 h2
      rcases List.mem_append.mp ha with ha' | ha' <;>
        rcases List.mem_append.mp hb with hb' | hb'
      · exact hkey a ha' b hb' h1 h2
      · exfalso
        rw [List.mem_singleton.mp hb'] at h1 h2
        exact List.find?_eq_none.mp hf a ha' (by simp [h1, h2])
      · exfalso
        rw [List.mem_singleton.mp ha'] at h1 h2
        exact List.find?_eq_none.mp hf b hb' (by simp [h1.symm, h2.symm])
      · rw [List.mem_singleton.mp ha', List.mem_singleton.mp hb']
  | some w0 =>
    have hw0mem := List.mem_of_find?_eq_some hf
    have hw0p := List.find?_some hf
    simp only [decide_eq_true_eq] at hw0p
    have huniq : ∀ x ∈ s.work_shifts, ∀ y ∈ s.work_shifts,
        x.work_shift_id = y.work_shift_id → x = y := by
      intro x hx y hy hxy
      by_contra hne
      exact hpair.forall (fun a b hab => (fun hc => hab hc.symm)) hx hy
        hne hxy
    have hres : upsertWorkShiftRow s u date sid note =
        ({ w0 with schedule_id := sid, note := jsOrNull note,
                   visibility_level := 0, created_by_user_id := u,
                   deleted_at := none, deleted_by_user_id := none },
         { s with work_shifts := s.work_shifts.map fun x =>
             if x.work_shift_id = w0.work_shift_id then
               { w0 with schedule_id := sid, note := jsOrNull note,
                         visibility_level := 0, created_by_user_id := u,
                         deleted_at := none, deleted_by_user_id := none }
             else x }) := by
      simp only [upsertWorkShiftRow, hf]
    rw [hres]
    have hkeys : ∀ x ∈ s.work_shifts,
        ((if x.work_shift_id = w0.work_shift_id then
          { w0 with schedule_id := sid, note := jsOrNull note,
                    visibility_level := 0, created_by_user_id := u,
                    deleted_at := none, deleted_by_user_id := none }
          else x) : WorkShift).owner_user_id = x.owner_user_id ∧
        ((if x.work_shift_id = w0.work_shift_id then
          { w0 with schedule_id := sid, note := jsOrNull note,
                    visibility_level := 0, created_by_user_id := u,
                    deleted_at := none, deleted_by_user_id := none }
          else x) : WorkShift).work_date = x.work_date := by
      intro x hx
      by_cases hc : x.work_shift_id = w0.work_shift_id
      · have hxw0 := huniq x hx w0 hw0mem hc
        rw [if_pos hc, hxw0]
        exact ⟨rfl, rfl⟩
      · rw [if_neg hc]
        exact ⟨rfl, rfl⟩
    refine ⟨hw0p.1, hw0p.2, rfl, rfl, rfl, ?_, ?_, ?_, ?_⟩
    · exact filter_map_replace
        (fun w => decide (w.owner_user_id = u ∧ w.work_date = date)) w0
        { w0 with schedule_id := sid, note := jsOrNull note,
                  visibility_level := 0, created_by_user_id := u,
                  deleted_at := none, deleted_by_user_id := none }
        rfl s.work_shifts hpair hw0mem
        (by simp [hw0p.1, hw0p.2])
        (fun x hx hxn => by
          apply decide_eq_false
          rintro ⟨hx1, hx2⟩
          exact hxn (hkey x hx w0 hw0mem (hx1.trans hw0p.1.symm)
            (hx2.trans hw0p.2.symm)))
    · intro w hw
      obtain ⟨y, hy, rfl⟩ := List.mem_map.mp hw
      by_cases hc : y.work_shift_id = w0.work_shift_id
      · rw [if_pos hc]
        exact hbound w0 hw0mem
      · rw [if_neg hc]
        exact hbound y hy
    · rw [List.pairwise_map]
      refine hpair.imp_of_mem ?_
      intro a b ha hb hne
      by_cases hca : a.work_shift_id = w0.work_shift_id <;>
        by_cases hcb : b.work_shift_id = w0.work_shift_id
      · exact absurd (hca.trans hcb.symm) hne
      · rw [if_pos hca, if_neg hcb]
        show w0.work_shift_id ≠ b.work_shift_id
        exact fun hcc => hcb hcc.symm
      · rw [if_neg hca, if_pos hcb]
        show a.work_shift_id ≠ w0.work_shift_id
        exact hca
      · rw [if_neg hca, if_neg hcb]
        exact hne
    · intro a ha b hb h1 h2
      obtain ⟨y, hy, rfl⟩ := List.mem_map.mp ha
      obtain ⟨z, hz, rfl⟩ := List.mem_map.mp hb
      have hky := hkeys y hy
      have hkz := hkeys z hz
      have hyz : y = z := hkey y hy z hz
        ((hky.1.symm.trans h1).trans hkz.1) ((hky.2.symm.trans h2).trans hkz.2)
      rw [hyz]

theorem findOrCreateSchedule_preserves_wf (s : DBState) (a b : Nat)
    (hwf : WorkShiftsWF s) : WorkShiftsWF (findOrCreateSchedule s a b).2 := by
  unfold findOrCreateSchedule
  cases h : findSchedule s a b with
  | some sc => exact hwf
  | none =>
    obtain ⟨h1, h2, h3⟩ := hwf
    exact ⟨fun w hw => Nat.lt_succ_of_lt (h1 w hw), h2, h3⟩

theorem upsertWorkShift_wf (s s' : DBState) (u date : Nat) (c : String)
    (n : Option String) (w : WorkShift) (hwf : WorkShiftsWF s)
    (h : upsertWorkShift s u date c n = (.ok w, s')) : WorkShiftsWF s' := by
  unfold upsertWorkShift at h
  cases hA : findShiftTypeForOwner s c u with
  | none => rw [hA] at h; exact absurd h (by simp)
  | some stA =>
    simp only [hA] at h
    cases hB : findActiveTemplate s u with
    | none => rw [hB] at h; exact absurd h (by simp)
    | some tB =>
      simp only [hB] at h
      cases hC : latestVersion s tB.template_id with
      | none => rw [hC] at h; exact absurd h (by simp)
      | some lvC =>
        simp only [hC] at h
        have hs' : s' = (upsertWorkShiftRow
            (findOrCreateSchedule s stA.shift_type_id
              lvC.template_version_id).2 u date
            (findOrCreateSchedule s stA.shift_type_id
              lvC.template_version_id).1.schedule_id n).2 := by
          have hsnd := congrArg Prod.snd h
          simpa using hsnd.symm
        rw [hs']
        exact (upsertWorkShiftRow_spec _ _ _ _ _
          (findOrCreateSchedule_preserves_wf s _ _ hwf)).2.2.2.2.2.2

/-- C5: starting from a store satisfying the work-shift table's schema
invariants, two successive upserts for the same `(owner, work_date)` leave
exactly one live row for that key — the row returned by the second call —
and that row carries the second call's note and the schedule reference the
second call resolved. -/
theorem upsertWorkShift_idempotent (s s1 s2 : DBState) (u date : Nat)
    (c1 c2 : String) (n1 n2 : Option String) (w1 w2 : WorkShift)
    (hwf : WorkShiftsWF s)
    (h1 : upsertWorkShift s u date c1 n1 = (.ok w1, s1))
    (h2 : upsertWorkShift s1 u date c2 n2 = (.ok w2, s2)) :
    liveRowsForKey s2.work_shifts u date = [w2] ∧
    w2.note = jsOrNull n2 ∧ w2.deleted_at = none ∧
    (∀ st2 t2 lv2, findShiftTypeForOwner s1 c2 u = some st2 →
      findActiveTemplate s1 u = some t2 →
      latestVersion s1 t2.template_id = some lv2 →
      w2.schedule_id = (findOrCreateSchedule s1 st2.shift_type_id
        lv2.template_version_id).1.schedule_id) := by
  have hwf1 : WorkShiftsWF s1 := upsertWorkShift_wf s s1 u date c1 n1 w1
    hwf h1
  unfold upsertWorkShift at h2
  cases hA : findShiftTypeForOwner s1 c2 u with
  | none => rw [hA] at h2; exact absurd h2 (by simp)
  | some stA =>
    simp only [hA] at h2
    cases hB : findActiveTemplate s1 u with
    | none => rw [hB] at h2; exact absurd h2 (by simp)
    | some tB =>
      simp only [hB] at h2
      cases hC : latestVersion s1 tB.template_id with
      | none => rw [hC] at h2; exact absurd h2 (by simp)
      | some lvC =>
        simp only [hC] at h2
        have hw2 : w2 = (upsertWorkShiftRow
            (findOrCreateSchedule s1 stA.shift_type_id
              lvC.template_version_id).2 u date
            (findOrCreateSchedule s1 stA.shift_type_id
              lvC.template_version_id).1.schedule_id n2).1 := by
          have hfst := congrArg Prod.fst h2
          simpa using hfst.symm
        have hs2 : s2 = (upsertWorkShiftRow
            (findOrCreateSchedule s1 stA.shift_type_id
              lvC.template_version_id).2 u date
            (findOrCreateSchedule s1 stA.shift_type_id
              lvC.template_version_id).1.schedule_id n2).2 := by
          have hsnd := congrArg Prod.snd h2
          simpa using hsnd.symm
        have hspec := upsertWorkShiftRow_spec
          (findOrCreateSchedule s1 stA.shift_type_id
            lvC.template_version_id).2 u date
          (findOrCreateSchedule s1 stA.shift_type_id
            lvC.template_version_id).1.schedule_id n2
          (findOrCreateSchedule_preserves_wf s1 _ _ hwf1)
        have hwsbase : (findOrCreateSchedule s1 stA.shift_type_id
            lvC.template_version_id).2.work_shifts = s1.work_shifts := by
          unfold findOrCreateSchedule
          cases findSchedule s1 stA.shift_type_id lvC.template_version_id
            <;> rfl
        refine ⟨?_, ?_, ?_, ?_⟩
        · rw [hs2, hw2]
          unfold liveRowsForKey
          rw [hspec.2.2.2.2.2.1]
          have hlive := hspec.2.2.2.2.1
          simp [List.filter_cons, hlive]
        · rw [hw2]
          exact hspec.2.2.2.1
        · rw [hw2]
          exact hspec.2.2.2.2.1
        · intro st2 t2 lv2 hst2 ht2 hlv2
          have he1 : st2 = stA := (Option.some.inj hst2).symm
          subst he1
          have he2 : t2 = tB := (Option.some.inj ht2).symm
          subst he2
          have he3 : lv2 = lvC := Option.some.inj (hlv2.symm.trans hC)
          subst he3
          rw [hw2]
          exact hspec.2.2.1

/-- The store after the first witness upsert (day 7, code `D`, note
`night`): one inserted work-shift row. -/
def c5s1 : DBState :=
  ⟨[demoTemplate], [demoV1, demoV2], [demoDayType],
   [⟨6, 2, 4, some "06:30:00", some "15:00:00", false, 510⟩],
   [⟨10, 1, 7, 6, some "night", 0, 1, none, none⟩], 11⟩

/-- The store after the second witness upsert (same key, note `day2`):
still a single row, overwritten in place. -/
def c5s2 : DBState :=
  ⟨[demoTemplate], [demoV1, demoV2], [demoDayType],
   [⟨6, 2, 4, some "06:30:00", some "15:00:00", false, 510⟩],
   [⟨10, 1, 7, 6, some "day2", 0, 1, none, none⟩], 11⟩

/-- C5 witness: after two upserts of `(owner 1, day 7)` the live rows for
that key are exactly the one row returned by the second call. -/
theorem upsertWorkShift_idempotent_witness :
    liveRowsForKey c5s2.work_shifts 1 7 =
      [⟨10, 1, 7, 6, some "day2", 0, 1, none, none⟩] :=
  (upsertWorkShift_idempotent schedState c5s1 c5s2 1 7 "D" "D"
    (some "night") (some "day2")
    ⟨10, 1, 7, 6, some "night", 0, 1, none, none⟩
    ⟨10, 1, 7, 6, some "day2", 0, 1, none, none⟩
    (by unfold WorkShiftsWF; decide) (by decide) (by decide)).1
